import Mathlib

/-!
Verification development for the libvms VM execution engine.

The definitions below are a shallow embedding of the repository sources:

* `executeCall`, `deployFresh`, `fromCallLog`, `replayEntries` are translated
  from the current-generation `VM` class in `src/unnamed/part_001`
  (lines 156-407), which is the version exercised by the test suite
  (`src/test/vm.js`).  The older generations in `src/lib/vm.js` and
  `src/lib/backend-vm.js` differ where noted in comments.
* `queueRPCCall`, `handshakeMethods` and the blacklist are translated from
  the RPC server in `src/unnamed/part_001` (lines 1-143).
* `provisionVM` is translated from the later `VMFactory` variant in
  `src/lib/vm.js` (lines 426-480), the one whose behaviour the factory test
  suite (`src/test/vm-factory.js`) pins down.

Guest values (JavaScript values crossing the host/guest boundary) are kept
as an arbitrary type parameter `V`; `Option` models JavaScript `undefined`
for optional fields.  The files archive (an external library,
node-dat-archive) is modelled by its version counter: each successful
mutating operation performed by a guest method increments the version by
one, so a method reports the number of writes it performed.
-/

/-- One call record as handed to `callLog.appendCall` by `VM.executeCall`
(src/unnamed/part_001 lines 277-284): userId, methodName, args, res, err
and the files-archive version read after the method completed. -/
structure CallRecord (V : Type) where
  userId : Option String
  methodName : String
  args : List V
  res : Option V
  err : Option String
  filesVersion : Nat
  deriving DecidableEq

/-- The `call` sub-object of a persisted log entry (spec section 6 schema;
the producer, lib/call-log.js, is not among the sources). -/
structure CallFields (V : Type) where
  methodName : String
  args : List V
  userId : Option String
  deriving DecidableEq

/-- The `result` sub-object of a persisted `call` log entry. -/
structure ResultFields (V : Type) where
  filesVersion : Nat
  res : Option V
  err : Option String
  deriving DecidableEq

/-- Modelled from the spec: lib/call-log.js is not among the sources, so a
persisted log entry follows the schema of spec section 6 (and the literal
entries asserted by src/test/vm.js): a `type` tag plus the fields used by
each entry kind, absent fields being JavaScript `undefined` (`none`). -/
structure LogEntry (V : Type) where
  type : String
  code : Option String := none
  filesArchiveUrl : Option String := none
  call : Option (CallFields V) := none
  result : Option (ResultFields V) := none
  deriving DecidableEq

/-- The sequence-0 `init` entry appended by `CallLog.create(dir, code, url)`. -/
def initEntry (V : Type) (code url : String) : LogEntry V :=
  { type := "init", code := some code, filesArchiveUrl := some url,
    call := none, result := none }

/-- How `appendCall` persists a call record (schema of spec section 6,
matching the entries asserted by src/test/vm.js). -/
def callEntry {V : Type} (r : CallRecord V) : LogEntry V :=
  { type := "call", code := none, filesArchiveUrl := none,
    call := some { methodName := r.methodName, args := r.args, userId := r.userId },
    result := some { filesVersion := r.filesVersion, res := r.res, err := r.err } }

/-- Result of running one guest method: the settled outcome of the awaited
call (a thrown error, or a returned value where `none` is `undefined`),
together with the number of successful mutating files-archive operations the
method performed (each increments the archive version by one; spec
section 3). -/
structure MethodResult (V : Type) where
  outcome : Except String (Option V)
  writes : Nat

/-- A guest method: it observes the caller slot (via the `System.caller.id`
getter, src/unnamed/part_001 line 382), its argument list, and the archive
version at entry. -/
def GuestMethod (V : Type) : Type :=
  Option String → List V → Nat → MethodResult V

/-- One value of the guest script's `exports` object: a callable method or a
plain non-callable value (such as `exports.var = 'bar'` in the tests). -/
inductive ExportVal (V : Type) where
  | func (m : GuestMethod V)
  | value (v : V)

/-- The evaluated guest script: its `exports` mapping, ordered as the
properties were assigned. -/
structure Guest (V : Type) where
  exportsList : List (String × ExportVal V)

/-- First-match association-list lookup, modelling JavaScript property
access `obj[name]` (`none` is `undefined`). -/
def lookupAssoc {α : Type} : List (String × α) → String → Option α
  | [], _ => none
  | (k, v) :: rest, n => if k = n then some v else lookupAssoc rest n

/-- The mutable state of one deployed VM: script, archive and log URLs, the
caller-context slot `this[CURRENT_USER]`, the files-archive version, and the
call log as the list of appended entries. -/
structure VMState (V : Type) where
  code : String
  filesArchiveUrl : String
  callLogUrl : String
  currentUser : Option String
  filesVersion : Nat
  callLog : List (LogEntry V)

/-- The `res` recorded by `executeCall`: `undefined` when the method threw. -/
def outcomeRes {V : Type} : Except String (Option V) → Option V
  | Except.ok r => r
  | Except.error _ => none

/-- The `err` recorded by `executeCall`: `undefined` when the method
returned normally. -/
def outcomeErr {V : Type} : Except String (Option V) → Option String
  | Except.ok _ => none
  | Except.error e => some e

/-- Invoking `this.sandbox.exports[methodName](...args)`: a missing export
or a non-callable export raises a TypeError, which the surrounding
`try/catch` turns into a recorded error. The caller slot was just set to
`userId`, so the getter-backed `System.caller.id` shows `userId` to the
method. -/
def methodOutcome {V : Type} (g : Guest V) (m : String) (caller : Option String)
    (args : List V) (version : Nat) : MethodResult V :=
  match lookupAssoc g.exportsList m with
  | some (ExportVal.func f) => f caller args version
  | some (ExportVal.value _) =>
      { outcome := Except.error "TypeError: exports method is not a function", writes := 0 }
  | none =>
      { outcome := Except.error "TypeError: exports method is not a function", writes := 0 }

/-- Translated from `VM.executeCall` (src/unnamed/part_001 lines 262-289):
default the args (`args = args or []`), set the caller slot, await the
exported method, append the call record whether it succeeded or threw
(`filesVersion` is the archive version read after the method returned), then
re-raise the error or return the result. -/
def executeCall {V : Type} (g : Guest V) (vm : VMState V) (m : String)
    (a : Option (List V)) (u : Option String) : Except String (Option V) × VMState V :=
  let args := a.getD []
  let step := methodOutcome g m u args vm.filesVersion
  let v2 := vm.filesVersion + step.writes
  let r : CallRecord V :=
    { userId := u, methodName := m, args := args,
      res := outcomeRes step.outcome, err := outcomeErr step.outcome,
      filesVersion := v2 }
  (step.outcome,
   { vm with currentUser := u, filesVersion := v2,
             callLog := vm.callLog ++ [callEntry r] })

/-- The VM state right after `deploy` set up a fresh archive and log
(src/unnamed/part_001 lines 231-240): archive version 1 (spec section 3:
the version starts at 1 post-init, pinned by the tests), log seeded with the
`init` entry, caller slot unset. -/
def deployBase (V : Type) (code aUrl lUrl : String) : VMState V :=
  { code := code, filesArchiveUrl := aUrl, callLogUrl := lUrl,
    currentUser := none, filesVersion := 1,
    callLog := [initEntry V code aUrl] }

/-- Translated from `VM.deploy` on a fresh directory (src/unnamed/part_001
lines 214-254): evaluate the script (`ev` stands for the Node vm evaluation
of a code string) and, when the script exports `init`, run
`executeCall(methodName 'init')` with no args and no user id.  This is the
settled state once the un-awaited init call has run to completion; the
event ordering of the missing `await` is modelled by `deployEvents`. -/
def deployFresh {V : Type} (ev : String → Guest V) (code aUrl lUrl : String) : VMState V :=
  if (lookupAssoc (ev code).exportsList "init").isSome
  then (executeCall (ev code) (deployBase V code aUrl lUrl) "init" none none).2
  else deployBase V code aUrl lUrl

/-- One queued invocation, as fed to `executeCall` by the RPC server or the
replay driver. -/
structure CallReq (V : Type) where
  methodName : String
  args : Option (List V)
  userId : Option String

/-- Running a sequence of serialized calls on a VM (the per-VM queue runs
them strictly one at a time, src/unnamed/part_001 lines 122-140). -/
def runCalls {V : Type} (g : Guest V) : VMState V → List (CallReq V) → VMState V
  | vm, [] => vm
  | vm, q :: qs => runCalls g (executeCall g vm q.methodName q.args q.userId).2 qs

/-- The ways `VM.fromCallLog` can reject: a first entry that is not `init`
(src/unnamed/part_001 line 303), a files-archive URL assertion mismatch
(line 306), or a native TypeError escaping the function (reading a property
of `undefined`: an empty entry list, or destructuring `msg.call` of an
entry that has no `call` object, line 323). -/
inductive ReplayError where
  | malformedLog (got : String)
  | assertionMismatch (logUrl serverUrl : Option String)
  | uncaughtTypeError
  deriving DecidableEq

/-- The assertions object given to `fromCallLog`; only `filesArchiveUrl` is
consulted. -/
structure Assertions where
  filesArchiveUrl : Option String
  deriving DecidableEq

/-- The replay loop of `VM.fromCallLog` (src/unnamed/part_001 lines
313-330): for each entry a debug note is emitted when its type is not
`call`, and then - with no `continue` - the code unconditionally
destructures `msg.call`; when that field is absent the destructuring throws
an uncaught TypeError, otherwise the recorded call is re-executed with any
guest error swallowed by the `try/catch`. -/
def replayEntries {V : Type} (g : Guest V) (vm : VMState V) :
    List (LogEntry V) → Except ReplayError (VMState V)
  | [] => Except.ok vm
  | msg :: rest =>
    match msg.call with
    | none => Except.error ReplayError.uncaughtTypeError
    | some c =>
      replayEntries g (executeCall g vm c.methodName (some c.args) c.userId).2 rest

/-- Translated from `VM.fromCallLog` (src/unnamed/part_001 lines 293-333):
shift the first entry (an empty list makes `initMsg.type` throw a native
TypeError), require type `init`, require the asserted files-archive URL to
match, then construct and deploy a VM from the recorded code into a fresh
temporary directory (`freshAUrl`/`freshLUrl` are the replica's own new
archive and log URLs) and replay the remaining entries. -/
def fromCallLog {V : Type} (ev : String → Guest V) (freshAUrl freshLUrl : String)
    (entries : List (LogEntry V)) (asrt : Assertions) : Except ReplayError (VMState V) :=
  match entries with
  | [] => Except.error ReplayError.uncaughtTypeError
  | initMsg :: rest =>
    if initMsg.type ≠ "init" then
      Except.error (ReplayError.malformedLog initMsg.type)
    else if initMsg.filesArchiveUrl ≠ asrt.filesArchiveUrl then
      Except.error (ReplayError.assertionMismatch initMsg.filesArchiveUrl asrt.filesArchiveUrl)
    else
      let code := initMsg.code.getD ""
      replayEntries (ev code) (deployFresh ev code freshAUrl freshLUrl) rest

/-- The observable milestones of `VM.deploy` (src/unnamed/part_001 lines
214-254) in execution order. -/
inductive DeployEvent where
  | archiveAndLogReady
  | scriptEvaluated
  | initMethodInvoked
  | readyEmitted
  | initCallAppended
  deriving DecidableEq

/-- Event order of `deploy`: the init `executeCall` is started WITHOUT
`await` (src/unnamed/part_001 line 250), so it runs synchronously only up to
its first `await` - through the invocation of the guest init method - while
its remaining steps (reading the post-call archive version and appending the
call record) are deferred behind that `await` boundary.  The synchronous
`this.emit('ready')` on line 253 therefore runs before the append commits. -/
def deployEvents (hasInit : Bool) : List DeployEvent :=
  [DeployEvent.archiveAndLogReady, DeployEvent.scriptEvaluated]
    ++ (if hasInit then [DeployEvent.initMethodInvoked] else [])
    ++ [DeployEvent.readyEmitted]
    ++ (if hasInit then [DeployEvent.initCallAppended] else [])

/-- Methods that can not be called remotely (src/unnamed/part_001 line 7). -/
def RPC_METHODS_BLACKLIST : List String := ["init"]

/-- Queue bound of the RPC server (src/unnamed/part_001 line 4). -/
def MAX_QUEUE_LENGTH : Nat := 1000

/-- One pending RPC invocation on a mounted VM's call queue. -/
structure QueuedCall (V : Type) where
  methodName : String
  args : List V
  userId : Option String

/-- The two rejections of `MountedVM.queueRPCCall`. -/
inductive RPCError where
  | tooManyRequests
  | methodNotSupported
  deriving DecidableEq

/-- Translated from `MountedVM.queueRPCCall` (src/unnamed/part_001 lines
98-120): reject on an over-full queue, reject blacklisted method names
before anything is enqueued, otherwise push the call onto the queue. -/
def queueRPCCall {V : Type} (queue : List (QueuedCall V)) (m : String)
    (args : List V) (u : Option String) : Except RPCError (List (QueuedCall V)) :=
  if queue.length > MAX_QUEUE_LENGTH then
    Except.error RPCError.tooManyRequests
  else if RPC_METHODS_BLACKLIST.contains m then
    Except.error RPCError.methodNotSupported
  else
    Except.ok (queue ++ [{ methodName := m, args := args, userId := u }])

/-- The exported names that are functions (`MountedVM.register`,
src/unnamed/part_001 lines 64-75). -/
def exportedFunctionNames {V : Type} (g : Guest V) : List String :=
  (g.exportsList.filter fun p =>
    match p.2 with
    | ExportVal.func _ => true
    | ExportVal.value _ => false).map Prod.fst

/-- The method list advertised by the `handshake` RPC method: the exported
function names with blacklisted names filtered out (src/unnamed/part_001
line 76). -/
def handshakeMethods {V : Type} (g : Guest V) : List String :=
  (exportedFunctionNames g).filter fun m => !(RPC_METHODS_BLACKLIST.contains m)

/-- `path.join(dir, id)` for a directory path without a trailing slash. -/
def joinPath (a b : String) : String := a ++ "/" ++ b

/-- A provisioned child VM as held in the factory's child map: its id, its
deployment directory, and its deployed state. -/
structure DeployedChild (V : Type) where
  id : String
  dir : String
  vm : VMState V

/-- What a mount on the RPC server points at: the factory object itself, or
an individual child VM.  The later `VMFactory.provisionVM` variant
(src/lib/vm.js line 460) mounts the child; the superseded earlier variant
(line 290) mounted the factory. -/
inductive MountedRef (V : Type) where
  | factorySelf
  | child (c : DeployedChild V)

/-- The factory's own state: its VM identity and deployment directory plus
the child registry and the RPC server's mount map. -/
structure FactoryState (V : Type) where
  id : String
  dir : String
  maxVMs : Option Nat
  numVMs : Nat
  childVMs : List (String × DeployedChild V)
  mounts : List (String × MountedRef V)

/-- The `if (this.maxVMs) assert(this.numVMs < this.maxVMs)` guard
(src/lib/vm.js lines 443-445); a JavaScript `maxVMs` of `undefined` or `0`
is falsy and skips the check. -/
def capacityOk {V : Type} (fs : FactoryState V) : Bool :=
  match fs.maxVMs with
  | none => true
  | some m => if m = 0 then true else decide (fs.numVMs < m)

/-- The value returned by a successful `provisionVM`. -/
structure ChildInfo where
  id : String
  callLogUrl : String
  filesArchiveUrl : String
  deriving DecidableEq

/-- Translated from the later `VMFactory.provisionVM` variant
(src/lib/vm.js lines 442-467): capacity guard, `code` must be a non-empty
string, then a child VM is constructed (`freshId` stands for the uuid
assigned at construction) and deployed under `path.join(this.dir, vm.id)`
(the fresh archive and log URLs stand for the ones the deployment creates),
registered in the child map, mounted - the child itself, not the factory -
at the path `/` ++ id on the RPC server, and its id and URLs are returned. -/
def provisionVM {V : Type} (ev : String → Guest V) (fs : FactoryState V)
    (codeArg : Option String) (_title freshId freshAUrl freshLUrl : String) :
    Except String (FactoryState V × ChildInfo) :=
  if capacityOk fs = false then
    Except.error "This host is at maximum capacity"
  else
    match codeArg with
    | none => Except.error "Code is required"
    | some c =>
      if c = "" then Except.error "Code is required"
      else
        let child : DeployedChild V :=
          { id := freshId, dir := joinPath fs.dir freshId,
            vm := deployFresh ev c freshAUrl freshLUrl }
        Except.ok
          ({ fs with numVMs := fs.numVMs + 1,
                     childVMs := (freshId, child) :: fs.childVMs,
                     mounts := ("/" ++ freshId, MountedRef.child child) :: fs.mounts },
           { id := freshId, callLogUrl := freshLUrl, filesArchiveUrl := freshAUrl })

/-- The `filesVersion` fields of the `call` entries of a log, in order. -/
def callVersions {V : Type} (log : List (LogEntry V)) : List Nat :=
  log.filterMap fun e => e.result.map ResultFields.filesVersion

/-- Invariant tying a VM's log to its archive: recorded versions form a
non-decreasing chain and never exceed the current archive version. -/
def VersionInv {V : Type} (vm : VMState V) : Prop :=
  List.Chain' (fun a b => a ≤ b) (callVersions vm.callLog)
    ∧ ∀ n ∈ callVersions vm.callLog, n ≤ vm.filesVersion

/-- Demo guest method returning 7 with no writes. -/
def fDemo : GuestMethod Nat := fun _ _ _ => { outcome := Except.ok (some 7), writes := 0 }

/-- Demo guest exporting a single method `f`. -/
def gDemo : Guest Nat := { exportsList := [("f", ExportVal.func fDemo)] }

/-- Demo guest exporting an `init` method. -/
def gInitDemo : Guest Nat := { exportsList := [("init", ExportVal.func fDemo)] }

/-- Demo guest whose only method always throws. -/
def gThrow : Guest Nat :=
  { exportsList :=
      [("boom", ExportVal.func fun _ _ _ => { outcome := Except.error "boom failed", writes := 0 })] }

/-- Demo guest with no exports. -/
def emptyGuest : Guest Nat := { exportsList := [] }

/-- Demo deployed VM state. -/
def vmDemo : VMState Nat :=
  { code := "x", filesArchiveUrl := "u", callLogUrl := "w",
    currentUser := none, filesVersion := 1, callLog := [initEntry Nat "x" "u"] }

/-- Demo log entry of an unknown type carrying no `call` object. -/
def unknownEntry : LogEntry Nat :=
  { type := "frob", code := none, filesArchiveUrl := none, call := none, result := none }

/-- Demo log entry whose first entry is a `call`, not `init`. -/
def badFirstEntry : LogEntry Nat :=
  { type := "call", code := none, filesArchiveUrl := none, call := none, result := none }

/-- Demo recorded call entry whose replay invokes the throwing method. -/
def throwEntry : LogEntry Nat :=
  { type := "call", code := none, filesArchiveUrl := none,
    call := some { methodName := "boom", args := [], userId := some "eve" },
    result := none }

/-- Demo factory state with no children. -/
def fsDemo : FactoryState Nat :=
  { id := "F", dir := "d", maxVMs := none, numVMs := 0, childVMs := [], mounts := [] }

/-- The child produced by the demo provisioning. -/
def childDemo : DeployedChild Nat :=
  { id := "k1", dir := joinPath "d" "k1",
    vm := deployFresh (fun _ => emptyGuest) "x" "a" "l" }

/-- Demo factory state after provisioning `childDemo`. -/
def fs2Demo : FactoryState Nat :=
  { id := "F", dir := "d", maxVMs := none, numVMs := 1,
    childVMs := [("k1", childDemo)],
    mounts := [("/" ++ "k1", MountedRef.child childDemo)] }

/-- Demo provisioning return value. -/
def infoDemo : ChildInfo := { id := "k1", callLogUrl := "l", filesArchiveUrl := "a" }

/-- Case split on a settled outcome and the recorded res/err pair. -/
theorem outcome_cases {V : Type} (o : Except String (Option V)) :
    (∃ res, o = Except.ok res ∧ outcomeRes o = res ∧ outcomeErr o = none)
      ∨ (∃ er, o = Except.error er ∧ outcomeRes o = none ∧ outcomeErr o = some er) := by
  cases o with
  | ok r => exact Or.inl ⟨r, rfl, rfl, rfl⟩
  | error e => exact Or.inr ⟨e, rfl, rfl, rfl⟩

/-- Core behaviour of `executeCall`: exactly one call record is appended,
carrying the normalized arguments, the caller, and the post-call archive
version; the recorded res/err matches the value returned or re-raised. -/
theorem executeCall_spec {V : Type} (g : Guest V) (vm : VMState V) (m : String)
    (a : Option (List V)) (u : Option String) :
    ∃ r : CallRecord V,
      ((executeCall g vm m a u).2).callLog = vm.callLog ++ [callEntry r]
      ∧ r.userId = u ∧ r.methodName = m ∧ r.args = a.getD []
      ∧ r.filesVersion = ((executeCall g vm m a u).2).filesVersion
      ∧ ((∃ res, (executeCall g vm m a u).1 = Except.ok res ∧ r.res = res ∧ r.err = none)
         ∨ (∃ er, (executeCall g vm m a u).1 = Except.error er ∧ r.res = none ∧ r.err = some er)) := by
  refine ⟨_, rfl, rfl, rfl, rfl, rfl, ?_⟩
  exact outcome_cases (methodOutcome g m u (a.getD []) vm.filesVersion).outcome

/-- A call never decreases the archive version. -/
theorem executeCall_version_le {V : Type} (g : Guest V) (vm : VMState V) (m : String)
    (a : Option (List V)) (u : Option String) :
    vm.filesVersion ≤ ((executeCall g vm m a u).2).filesVersion :=
  Nat.le_add_right _ _

/-- `callVersions` distributes over append. -/
theorem callVersions_append {V : Type} (l1 l2 : List (LogEntry V)) :
    callVersions (l1 ++ l2) = callVersions l1 ++ callVersions l2 := by
  simp [callVersions]

/-- The versions list of a single persisted call entry. -/
theorem callVersions_callEntry {V : Type} (r : CallRecord V) :
    callVersions [callEntry r] = [r.filesVersion] := rfl

/-- `executeCall` preserves the version invariant. -/
theorem executeCall_versionInv {V : Type} (g : Guest V) (vm : VMState V) (m : String)
    (a : Option (List V)) (u : Option String) (h : VersionInv vm) :
    VersionInv ((executeCall g vm m a u).2) := by
  obtain ⟨r, hlog, _, _, _, hv, _⟩ := executeCall_spec g vm m a u
  have hle := executeCall_version_le g vm m a u
  constructor
  · show List.Chain' _ (callVersions ((executeCall g vm m a u).2).callLog)
    rw [hlog, callVersions_append, callVersions_callEntry, List.chain'_append]
    refine ⟨h.1, List.chain'_singleton _, ?_⟩
    intro x hx y hy
    have hy2 : r.filesVersion = y := by simpa using hy
    obtain ⟨hne, hx2⟩ := List.mem_getLast?_eq_getLast hx
    have hxmem : x ∈ callVersions vm.callLog := hx2 ▸ List.getLast_mem hne
    have hx3 := h.2 x hxmem
    omega
  · intro n hn
    rw [hlog, callVersions_append, callVersions_callEntry] at hn
    rcases List.mem_append.mp hn with h1 | h2
    · exact Nat.le_trans (h.2 n h1) hle
    · have hn2 : n = r.filesVersion := by simpa using h2
      subst hn2
      rw [hv]

/-- The freshly deployed state satisfies the version invariant. -/
theorem deployBase_versionInv (V : Type) (code aUrl lUrl : String) :
    VersionInv (deployBase V code aUrl lUrl) := by
  constructor
  · show List.Chain' _ (callVersions [initEntry V code aUrl])
    simp [callVersions, initEntry]
  · intro n hn
    simp [callVersions, deployBase, initEntry] at hn

/-- Deploying preserves the version invariant through the init call. -/
theorem deployFresh_versionInv {V : Type} (ev : String → Guest V) (code aUrl lUrl : String) :
    VersionInv (deployFresh ev code aUrl lUrl) := by
  unfold deployFresh
  split
  · exact executeCall_versionInv _ _ _ _ _ (deployBase_versionInv V code aUrl lUrl)
  · exact deployBase_versionInv V code aUrl lUrl

/-- Any serialized call sequence preserves the version invariant. -/
theorem runCalls_versionInv {V : Type} (g : Guest V) (reqs : List (CallReq V)) :
    ∀ vm : VMState V, VersionInv vm → VersionInv (runCalls g vm reqs) := by
  induction reqs with
  | nil => intro vm h; exact h
  | cons q qs ih =>
    intro vm h
    exact ih _ (executeCall_versionInv g vm q.methodName q.args q.userId h)

/-- Every entry list whose members all carry a `call` object replays to
completion. -/
theorem replayEntries_total {V : Type} (g : Guest V) (l : List (LogEntry V)) :
    (∀ e ∈ l, (LogEntry.call e).isSome = true) →
    ∀ vm : VMState V, ∃ vmOut, replayEntries g vm l = Except.ok vmOut := by
  induction l with
  | nil => intro _ vm; exact ⟨vm, rfl⟩
  | cons e rest ih =>
    intro hall vm
    have he : (LogEntry.call e).isSome = true := hall e (List.mem_cons_self e rest)
    obtain ⟨c, hc⟩ := Option.isSome_iff_exists.mp he
    have hrest : ∀ x ∈ rest, (LogEntry.call x).isSome = true :=
      fun x hx => hall x (List.mem_cons_of_mem e hx)
    obtain ⟨vmOut, hout⟩ :=
      ih hrest (executeCall g vm c.methodName (some c.args) c.userId).2
    exact ⟨vmOut, by simp [replayEntries, hc, hout]⟩

/-- C1: every invocation of `executeCall` appends exactly one call entry
carrying userId, methodName, args, res, err and filesVersion to the call
log, whether the guest method returned normally or threw; after the append,
the guest's result is returned on success and the guest's error re-raised
on failure. -/
theorem executeCall_logs_every_call (V : Type) (g : Guest V) (vm : VMState V)
    (m : String) (a : Option (List V)) (u : Option String) :
    ∃ r : CallRecord V,
      ((executeCall g vm m a u).2).callLog = vm.callLog ++ [callEntry r]
      ∧ r.userId = u ∧ r.methodName = m ∧ r.args = a.getD []
      ∧ r.filesVersion = ((executeCall g vm m a u).2).filesVersion
      ∧ ((∃ res, (executeCall g vm m a u).1 = Except.ok res ∧ r.res = res ∧ r.err = none)
         ∨ (∃ er, (executeCall g vm m a u).1 = Except.error er ∧ r.res = none ∧ r.err = some er)) :=
  executeCall_spec g vm m a u

/-- C2: in the call log of any VM obtained by a fresh deploy followed by any
serialized sequence of calls, the filesVersion fields of the call entries
form a non-decreasing chain (so adjacent call entries are ordered), and each
invocation records as filesVersion exactly the archive version observed
after its guest method completed. -/
theorem callLog_filesVersion_monotone (V : Type) (ev : String → Guest V)
    (code aUrl lUrl : String) (reqs : List (CallReq V)) :
    List.Chain' (fun a b => a ≤ b)
      (callVersions ((runCalls (ev code) (deployFresh ev code aUrl lUrl) reqs).callLog))
    ∧ ∀ (g : Guest V) (vm : VMState V) (m : String) (a : Option (List V)) (u : Option String),
        ∃ r : CallRecord V,
          ((executeCall g vm m a u).2).callLog = vm.callLog ++ [callEntry r]
          ∧ r.filesVersion = ((executeCall g vm m a u).2).filesVersion := by
  constructor
  · exact (runCalls_versionInv (ev code) reqs _ (deployFresh_versionInv ev code aUrl lUrl)).1
  · intro g vm m a u
    obtain ⟨r, hlog, _, _, _, hv, _⟩ := executeCall_spec g vm m a u
    exact ⟨r, hlog, hv⟩

/-- C6: `executeCall` awaits the guest method with `args or []`: an omitted
or falsy args field behaves exactly like an explicit empty argument list,
for the method invocation and for the logged record alike. -/
theorem executeCall_args_default (V : Type) (g : Guest V) (vm : VMState V)
    (m : String) (a : Option (List V)) (u : Option String) :
    executeCall g vm m a u = executeCall g vm m (some (a.getD [])) u := by
  cases a <;> rfl

/-- C5 counterexample: after a call with userId bob completes - so no call
is active on the VM any more - the caller-context slot still holds bob
instead of having been cleared; nothing in `executeCall` (or anywhere else
in the VM) ever resets `this[CURRENT_USER]`. -/
theorem caller_slot_not_cleared_after_call :
    ((executeCall gDemo vmDemo "f" none (some "bob")).2).currentUser = some "bob"
    ∧ ((executeCall gDemo vmDemo "f" none (some "bob")).2).currentUser ≠ none :=
  ⟨rfl, fun h => Option.noConfusion h⟩

/-- C5 amended: the caller slot is set to the call's userId at dispatch,
before the guest method runs, and the method observes exactly that value
through `System.caller.id`; after the call completes the slot retains the
last call's userId rather than being cleared. -/
theorem executeCall_caller_slot (V : Type) (g : Guest V) (vm : VMState V)
    (m : String) (a : Option (List V)) (u : Option String) :
    ((executeCall g vm m a u).2).currentUser = u
    ∧ ∀ f : GuestMethod V, lookupAssoc g.exportsList m = some (ExportVal.func f) →
        (executeCall g vm m a u).1 = (f u (a.getD []) vm.filesVersion).outcome := by
  refine ⟨rfl, ?_⟩
  intro f hf
  show (methodOutcome g m u (a.getD []) vm.filesVersion).outcome = _
  rw [methodOutcome, hf]

/-- C5 witness: the amended statement at a concrete guest and call. -/
theorem executeCall_caller_slot_witness :
    ((executeCall gDemo vmDemo "f" none (some "alice")).2).currentUser = some "alice"
    ∧ (executeCall gDemo vmDemo "f" none (some "alice")).1 = (fDemo (some "alice") [] 1).outcome :=
  ⟨(executeCall_caller_slot Nat gDemo vmDemo "f" none (some "alice")).1,
   (executeCall_caller_slot Nat gDemo vmDemo "f" none (some "alice")).2 fDemo rfl⟩

/-- C4: when the script exports `init`, `deploy` starts the init call and
the guest init method does run before `ready`, but the call record append
sits behind the un-awaited `executeCall`'s await boundary and therefore
commits only AFTER the synchronous `emit('ready')`: the ready event precedes
the append of the init call record in the deploy event order. -/
theorem deploy_ready_precedes_init_append :
    deployEvents true
      = [DeployEvent.archiveAndLogReady, DeployEvent.scriptEvaluated,
         DeployEvent.initMethodInvoked, DeployEvent.readyEmitted,
         DeployEvent.initCallAppended]
    ∧ ∃ i j, i < j
        ∧ (deployEvents true).get? i = some DeployEvent.readyEmitted
        ∧ (deployEvents true).get? j = some DeployEvent.initCallAppended :=
  ⟨rfl, 3, 4, by omega, rfl, rfl⟩

/-- C7: a replayed log whose second entry has an unknown type and no `call`
object makes `fromCallLog` fail with the uncaught TypeError raised by
destructuring `msg.call` - the entry is not skipped and the remaining
entries are never reached. -/
theorem replay_fails_on_unknown_entry_type :
    fromCallLog (fun _ => emptyGuest) "a2" "l2"
        [initEntry Nat "c" "a", unknownEntry] { filesArchiveUrl := some "a" }
      = Except.error ReplayError.uncaughtTypeError := rfl

/-- C3: `fromCallLog` rejects a log whose first entry is not of type `init`
with the malformed-log error, and rejects a mismatch between the asserted
and the recorded files-archive URL with the assertion-mismatch error; in
both cases the function returns the error before any VM is constructed or
deployed. -/
theorem fromCallLog_rejects_bad_init (V : Type) (ev : String → Guest V)
    (aUrl lUrl : String) (e0 : LogEntry V) (rest : List (LogEntry V)) (asrt : Assertions) :
    (e0.type ≠ "init" →
      fromCallLog ev aUrl lUrl (e0 :: rest) asrt
        = Except.error (ReplayError.malformedLog e0.type))
    ∧ (e0.type = "init" → e0.filesArchiveUrl ≠ asrt.filesArchiveUrl →
      fromCallLog ev aUrl lUrl (e0 :: rest) asrt
        = Except.error (ReplayError.assertionMismatch e0.filesArchiveUrl asrt.filesArchiveUrl)) := by
  constructor
  · intro h
    simp [fromCallLog, h]
  · intro h1 h2
    simp [fromCallLog, h1, h2]

/-- C3 witness: both rejections at concrete logs. -/
theorem fromCallLog_rejects_bad_init_witness :
    fromCallLog (fun _ => emptyGuest) "a2" "l2" [badFirstEntry] { filesArchiveUrl := some "u" }
      = Except.error (ReplayError.malformedLog "call")
    ∧ fromCallLog (fun _ => emptyGuest) "a2" "l2" [initEntry Nat "c" "u"] { filesArchiveUrl := some "w" }
      = Except.error (ReplayError.assertionMismatch (some "u") (some "w")) :=
  ⟨(fromCallLog_rejects_bad_init Nat (fun _ => emptyGuest) "a2" "l2" badFirstEntry []
      { filesArchiveUrl := some "u" }).1 (by decide),
   (fromCallLog_rejects_bad_init Nat (fun _ => emptyGuest) "a2" "l2" (initEntry Nat "c" "u") []
      { filesArchiveUrl := some "w" }).2 rfl (by decide)⟩

/-- C10: a replay whose recorded calls all carry their `call` object runs to
the end and returns the rebuilt VM even when re-executed calls throw: the
replay loop swallows the guest error and moves to the next entry, while the
failed call - with its error - has already been appended to the rebuilt
VM's own log by `executeCall`. -/
theorem replay_tolerates_guest_errors (V : Type) (ev : String → Guest V)
    (aUrl lUrl : String) (asrt : Assertions) (e0 : LogEntry V) (rest : List (LogEntry V))
    (h0 : e0.type = "init") (h1 : e0.filesArchiveUrl = asrt.filesArchiveUrl)
    (h2 : ∀ e ∈ rest, (LogEntry.call e).isSome = true) :
    (∃ vmOut, fromCallLog ev aUrl lUrl (e0 :: rest) asrt = Except.ok vmOut)
    ∧ ∀ (g : Guest V) (vm : VMState V) (e : LogEntry V) (tl : List (LogEntry V))
        (c : CallFields V) (er : String),
        e.call = some c →
        (executeCall g vm c.methodName (some c.args) c.userId).1 = Except.error er →
        replayEntries g vm (e :: tl)
            = replayEntries g ((executeCall g vm c.methodName (some c.args) c.userId).2) tl
        ∧ ∃ r : CallRecord V,
            ((executeCall g vm c.methodName (some c.args) c.userId).2).callLog
              = vm.callLog ++ [callEntry r] ∧ r.err = some er := by
  constructor
  · simp only [fromCallLog, h0, h1]
    simp only [ne_eq, not_true_eq_false, if_false]
    exact replayEntries_total _ rest h2 _
  · intro g vm e tl c er hc herr
    constructor
    · simp [replayEntries, hc]
    · obtain ⟨r, hlog, _, _, _, _, hres⟩ := executeCall_spec g vm c.methodName (some c.args) c.userId
      rcases hres with ⟨res, hok, _, _⟩ | ⟨er2, herr2, _, herrr⟩
      · rw [hok] at herr
        cases herr
      · rw [herr2] at herr
        injection herr with he
        subst he
        exact ⟨r, hlog, herrr⟩

/-- C10 witness: a concrete log whose single recorded call throws on replay
still replays to a rebuilt VM. -/
theorem replay_tolerates_guest_errors_witness :
    ∃ vmOut, fromCallLog (fun _ => gThrow) "a2" "l2"
        [initEntry Nat "c" "a", throwEntry] { filesArchiveUrl := some "a" }
      = Except.ok vmOut :=
  (replay_tolerates_guest_errors Nat (fun _ => gThrow) "a2" "l2" { filesArchiveUrl := some "a" }
    (initEntry Nat "c" "a") [throwEntry] rfl rfl
    (by intro e he; rw [List.mem_singleton] at he; subst he; rfl)).1

/-- C8: an RPC invocation of a blacklisted name - `init` - is rejected with
the method-not-supported error before anything is enqueued for dispatch
(given the queue is not already over its capacity bound, which is checked
first); the handshake's advertised method list never contains a blacklisted
name; and a VM whose script exports `init` still runs it internally at
deploy, appending its call record with empty args and no user id. -/
theorem rpc_blacklist_init (V : Type) :
    (∀ (queue : List (QueuedCall V)) (args : List V) (u : Option String),
      queue.length ≤ MAX_QUEUE_LENGTH →
      queueRPCCall queue "init" args u = Except.error RPCError.methodNotSupported)
    ∧ (∀ g : Guest V, "init" ∉ handshakeMethods g)
    ∧ (∀ (ev : String → Guest V) (code aUrl lUrl : String),
      (lookupAssoc (ev code).exportsList "init").isSome = true →
      ∃ r : CallRecord V,
        (deployFresh ev code aUrl lUrl).callLog = [initEntry V code aUrl, callEntry r]
        ∧ r.methodName = "init" ∧ r.args = [] ∧ r.userId = none) := by
  refine ⟨?_, ?_, ?_⟩
  · intro queue args u h
    have hnot : ¬ queue.length > MAX_QUEUE_LENGTH := by omega
    simp [queueRPCCall, hnot, RPC_METHODS_BLACKLIST]
  · intro g hmem
    have h2 := (List.mem_filter.mp hmem).2
    simp [RPC_METHODS_BLACKLIST] at h2
  · intro ev code aUrl lUrl h
    have hd : deployFresh ev code aUrl lUrl
        = (executeCall (ev code) (deployBase V code aUrl lUrl) "init" none none).2 := by
      unfold deployFresh
      rw [if_pos h]
    obtain ⟨r, hlog, hu, hm, hargs, _, _⟩ :=
      executeCall_spec (ev code) (deployBase V code aUrl lUrl) "init" none none
    refine ⟨r, ?_, hm, ?_, hu⟩
    · rw [hd, hlog]
      rfl
    · exact hargs

/-- C8 witness: the three parts at concrete inputs. -/
theorem rpc_blacklist_init_witness :
    queueRPCCall ([] : List (QueuedCall Nat)) "init" [] none
        = Except.error RPCError.methodNotSupported
    ∧ "init" ∉ handshakeMethods gInitDemo
    ∧ ∃ r : CallRecord Nat,
        (deployFresh (fun _ => gInitDemo) "c" "a" "l").callLog
          = [initEntry Nat "c" "a", callEntry r]
        ∧ r.methodName = "init" ∧ r.args = [] ∧ r.userId = none :=
  ⟨(rpc_blacklist_init Nat).1 [] [] none (by decide),
   (rpc_blacklist_init Nat).2.1 gInitDemo,
   (rpc_blacklist_init Nat).2.2 (fun _ => gInitDemo) "c" "a" "l" rfl⟩

/-- C9: a successful `provisionVM` deploys the freshly constructed child
under the factory directory joined with the child id, registers it in the
factory's child map, mounts the child VM itself - not the factory - at the
path `/` followed by the child id, and returns the child's id together with
its call log and files archive URLs. -/
theorem provisionVM_registers_and_mounts_child (V : Type) (ev : String → Guest V)
    (fs fs2 : FactoryState V) (codeArg : Option String)
    (title freshId aUrl lUrl : String) (info : ChildInfo)
    (h : provisionVM ev fs codeArg title freshId aUrl lUrl = Except.ok (fs2, info)) :
    ∃ c : String, codeArg = some c
      ∧ info = { id := freshId, callLogUrl := lUrl, filesArchiveUrl := aUrl }
      ∧ fs2.numVMs = fs.numVMs + 1
      ∧ lookupAssoc fs2.childVMs freshId
          = some { id := freshId, dir := joinPath fs.dir freshId,
                   vm := deployFresh ev c aUrl lUrl }
      ∧ ("/" ++ freshId, MountedRef.child
            { id := freshId, dir := joinPath fs.dir freshId,
              vm := deployFresh ev c aUrl lUrl }) ∈ fs2.mounts := by
  unfold provisionVM at h
  split at h
  · cases h
  · split at h
    · cases h
    · split at h
      · cases h
      · rename_i c hce
        simp only [Except.ok.injEq, Prod.mk.injEq] at h
        obtain ⟨hA, hB⟩ := h
        subst hA
        subst hB
        refine ⟨c, rfl, rfl, rfl, ?_, ?_⟩
        · simp [lookupAssoc]
        · exact List.mem_cons_self _ _

/-- C9 witness: a concrete successful provisioning. -/
theorem provisionVM_registers_and_mounts_child_witness :
    ∃ c : String, (some "x" : Option String) = some c
      ∧ infoDemo = { id := "k1", callLogUrl := "l", filesArchiveUrl := "a" }
      ∧ fs2Demo.numVMs = fsDemo.numVMs + 1
      ∧ lookupAssoc fs2Demo.childVMs "k1"
          = some { id := "k1", dir := joinPath fsDemo.dir "k1",
                   vm := deployFresh (fun _ => emptyGuest) c "a" "l" }
      ∧ ("/" ++ "k1", MountedRef.child
            { id := "k1", dir := joinPath fsDemo.dir "k1",
              vm := deployFresh (fun _ => emptyGuest) c "a" "l" }) ∈ fs2Demo.mounts := by
  exact provisionVM_registers_and_mounts_child Nat (fun _ => emptyGuest) fsDemo fs2Demo
    (some "x") "t" "k1" "a" "l" infoDemo rfl
